import Mathlib

/-!
Shallow embedding of QuickResizer's `image_processing.py` (the core image
pipeline). Pure Python functions become Lean functions; PIL images are
modelled as a structure carrying pixel dimensions, a color mode and a total
pixel function; fallible code returns `Except Err`. Machine integers are
`Int`/`Nat` (Python ints are unbounded, so no wrap-around modelling is
needed); Python float ratio arithmetic is modelled with exact rationals.
-/

namespace QuickResizer

/-- Errors raised by the pipeline. `valueError` mirrors Python `ValueError`
with its message; `unidentifiedImage` mirrors PIL's `UnidentifiedImageError`
raised by `Image.open` on undecodable bytes. -/
inductive Err where
  | valueError (msg : String)
  | unidentifiedImage
deriving DecidableEq

/-- True when an `Except` value is an error. -/
def isErr {ε α : Type} : Except ε α → Bool
  | Except.error _ => true
  | Except.ok _ => false

/-- `ResizePreset` enum from image_processing.py lines 13-18. -/
inductive ResizePreset where
  | SQUARE_1080
  | HD_1080P
  | PASSPORT
  | CUSTOM
deriving DecidableEq

/-- `PRESET_DIMENSIONS` dict (lines 22-26): fixed dimensions for the three
non-custom presets. -/
def PRESET_DIMENSIONS : ResizePreset → Option (Int × Int)
  | ResizePreset.SQUARE_1080 => some (1080, 1080)
  | ResizePreset.HD_1080P => some (1920, 1080)
  | ResizePreset.PASSPORT => some (413, 531)
  | ResizePreset.CUSTOM => none

/-- `get_preset_dimensions` (lines 29-35): raises ValueError when the preset
is CUSTOM and no custom size is given; otherwise returns the custom pair
unvalidated, or the fixed preset pair. -/
def get_preset_dimensions (preset : ResizePreset)
    (custom_size : Option (Int × Int)) : Except Err (Int × Int) :=
  match preset with
  | ResizePreset.CUSTOM =>
    match custom_size with
    | none => Except.error (Err.valueError "Custom size must be provided for CUSTOM preset")
    | some s => Except.ok s
  | p =>
    match PRESET_DIMENSIONS p with
    | some d => Except.ok d
    | none => Except.error (Err.valueError "unreachable: dict lookup")

/-- Python `str.upper` on ASCII strings (character-wise uppercasing). -/
def pyUpper (s : String) : String := String.mk (s.data.map Char.toUpper)

/-- Python `str.lower` on ASCII strings (character-wise lowercasing). -/
def pyLower (s : String) : String := String.mk (s.data.map Char.toLower)

/-- Split a character list at the LAST '.' like Python `s.rsplit('.', 1)`:
returns `some (before, after)` when a dot exists, else `none`. -/
def rsplitDot : List Char → Option (List Char × List Char)
  | [] => none
  | c :: rest =>
    match rsplitDot rest with
    | some (b, e) => some (c :: b, e)
    | none => if c = '.' then some ([], rest) else none

/-- Python `f"{n:04d}"` for a natural number: decimal digits left-padded
with zeros to a minimum width of 4. -/
def zfill4 (n : Nat) : String :=
  let s := toString n
  String.mk (List.replicate (4 - s.length) '0') ++ s

/-- `generate_filename` (lines 158-198). `pfx`/`sfx` model the Python
`prefix`/`suffix` parameters; `index` models the 1-based numbering index.
Note the Python truthiness check `extension if extension else orig_ext`:
an empty-string extension falls back to the original extension. -/
def generate_filename (original_name : String) (index : Nat)
    (pfx sfx : String) ( use_numbering : Bool) (extension : Option String) : String :=
  let (base_name, orig_ext) :=
    match rsplitDot original_name.toList with
    | some (b, e) => (String.mk b, "." ++ String.mk e)
    | none => (original_name, "")
  let new_name := pfx ++ base_name ++ sfx
  let new_name := if use_numbering then new_name ++ "_" ++ zfill4 index else new_name
  let final_ext :=
    match extension with
    | some e => if e = "" then orig_ext else e
    | none => orig_ext
  new_name ++ final_ext

/-- Modelled from the spec (section 4.5): the reference filename algorithm —
strip the original name's extension (text after the last '.', if any), form
prefix + stripped base + suffix, if numbering is enabled append '_' and the
index zero-padded to 4 digits, then append the final extension. -/
def spec_generate_filename (original_name : String) (index : Nat)
    (pfx sfx : String) (numbered : Bool) (final_ext : String) : String :=
  let stripped :=
    match rsplitDot original_name.toList with
    | some (b, _) => String.mk b
    | none => original_name
  let base := pfx ++ stripped ++ sfx
  let base := if numbered then base ++ "_" ++ zfill4 index else base
  base ++ final_ext

/-- A pixel with red, green, blue and alpha channels (0..255). Modes that
carry fewer channels use the conventions documented on `Mode`. -/
structure Pixel where
  r : Nat
  g : Nat
  b : Nat
  a : Nat
deriving DecidableEq

/-- PIL color modes the source branches on. Conventions for the `Pixel`
quadruple: `RGB` ignores `a` (pixels are constructed with `a = 255`);
`L` stores the luminance in `r = g = b`; `LA` additionally carries alpha;
`P` (palette) pixels are stored already palette-expanded, i.e. `px` gives
the RGBA color the palette maps the index to (the palette lookup is
absorbed into the pixel function, since the claims never inspect raw
palette indices). -/
inductive Mode where
  | RGB
  | RGBA
  | P
  | LA
  | L
deriving DecidableEq

/-- Python's `'A' in image.mode` test on the mode string. -/
def hasA : Mode → Bool
  | Mode.RGBA => true
  | Mode.LA => true
  | _ => false

/-- A decoded PIL image: pixel dimensions, color mode, and a total pixel
function indexed `px x y` with `x < width`, `y < height` (total for
convenience; theorems only inspect in-range pixels). -/
structure Img where
  width : Nat
  height : Nat
  mode : Mode
  px : Nat → Nat → Pixel

/-- Opaque white, the background color used for flattening and padding. -/
def white : Pixel := ⟨255, 255, 255, 255⟩

/-- PIL's fixed-point `MULDIV255` rounding: `(a*b + 128)` folded twice by
shifts of 8, the exact integer blend kernel used by `paste` with a mask. -/
def muldiv255 (a b : Nat) : Nat :=
  let tmp := a * b + 128
  (tmp / 256 + tmp) / 256

/-- Per-channel blend of source over background weighted by alpha, as PIL's
masked `paste` computes it. At `a = 0` it returns the background channel,
at `a = 255` the source channel. -/
def blend (bg src a : Nat) : Nat := muldiv255 bg (255 - a) + muldiv255 src a

/-- `background.paste(image, mask=image.split()[-1])` where `background` is
an opaque white RGB canvas of the same size: every channel is blended over
white using the source's alpha as mask; the result is RGB (alpha 255). -/
def pasteOnWhite (image : Img) : Img :=
  { width := image.width, height := image.height, mode := Mode.RGB,
    px := fun x y =>
      let p := image.px x y
      ⟨blend 255 p.r p.a, blend 255 p.g p.a, blend 255 p.b p.a, 255⟩ }

/-- `image.convert(m)` for the conversions the source performs. Converting
to RGB drops alpha (PIL does not composite on plain convert); converting
to RGBA keeps colors and adds an opaque alpha when the source had none
(`P` pixels are stored palette-expanded, so their alpha is kept). -/
def convertMode (image : Img) (m : Mode) : Img :=
  match m with
  | Mode.RGB =>
    { width := image.width, height := image.height, mode := Mode.RGB,
      px := fun x y =>
        let p := image.px x y
        ⟨p.r, p.g, p.b, 255⟩ }
  | Mode.RGBA =>
    { width := image.width, height := image.height, mode := Mode.RGBA,
      px := fun x y =>
        let p := image.px x y
        match image.mode with
        | Mode.RGB => ⟨p.r, p.g, p.b, 255⟩
        | Mode.L => ⟨p.r, p.g, p.b, 255⟩
        | _ => p }
  | m' => { image with mode := m' }

/-- The transparency-flattening block of `resize_image` (lines 58-70) and of
`convert_format`'s RGB branch (lines 139-148): RGBA/P/LA sources are
composited over a white background using their alpha as mask; any other
non-RGB mode is converted to RGB directly. -/
def flatten_transparency (image : Img) : Img :=
  if image.mode ∈ [Mode.RGBA, Mode.P, Mode.LA] then
    let image1 := if image.mode = Mode.P then convertMode image Mode.RGBA else image
    if hasA image1.mode then pasteOnWhite image1
    else convertMode image1 Mode.RGB
  else if image.mode ≠ Mode.RGB then convertMode image Mode.RGB
  else image

/-- The transparency handling in `process_image`'s crop path (lines 236-244):
identical to `flatten_transparency` except the first branch has no trailing
`convert('RGB')` (which is dead code there anyway, since after the `P` to
RGBA conversion the mode always contains an alpha channel). -/
def flatten_transparency_crop (image : Img) : Img :=
  if image.mode ∈ [Mode.RGBA, Mode.P, Mode.LA] then
    let image1 := if image.mode = Mode.P then convertMode image Mode.RGBA else image
    if hasA image1.mode then pasteOnWhite image1
    else image1
  else if image.mode ≠ Mode.RGB then convertMode image Mode.RGB
  else image

/-- Python's floor division `a // b` on ints. -/
def pyFloorDiv (a b : Int) : Int := Int.fdiv a b

/-- `image.resize((w, h), Image.LANCZOS)`: the output dimensions are exactly
`(w, h)`. The pixel content of a Lanczos resample is a float convolution
and is abstracted here as coordinate sampling of the source; no theorem in
this file depends on a resampled pixel value except where the source image
is constant, in which case any resampling of source pixels agrees. -/
def resample (image : Img) (w h : Nat) : Img :=
  { width := w, height := h, mode := image.mode,
    px := fun x y => image.px (x * image.width / w) (y * image.height / h) }

/-- The geometry of `resize_image`'s maintain-aspect branch (lines 73-84):
`ratio = min(tw/ow, th/oh)`, `new_size = (int(ow*ratio), int(oh*ratio))`,
centered paste offsets by floor division. The source computes the ratio in
Python floats; this embedding models that arithmetic as exact rationals,
carried out by cross-multiplication (the dimensions in scope are positive,
so multiplying through by the denominators preserves the comparison) and
`Int.tdiv` for the toward-zero truncation of Python `int()`. `min` picks
its first argument on ties, hence `≤`. Returns (new_w, new_h, paste_x,
paste_y). -/
def fit_layout (ow oh : Nat) (tw th : Int) : Nat × Nat × Int × Int :=
  let wFirst := tw * (oh : Int) ≤ th * (ow : Int)
  let nw := (if wFirst then Int.tdiv ((ow : Int) * tw) (ow : Int)
             else Int.tdiv ((ow : Int) * th) (oh : Int)).toNat
  let nh := (if wFirst then Int.tdiv ((oh : Int) * tw) (ow : Int)
             else Int.tdiv ((oh : Int) * th) (oh : Int)).toNat
  (nw, nh, pyFloorDiv (tw - (nw : Int)) 2, pyFloorDiv (th - (nh : Int)) 2)

/-- `resize_image` (lines 38-89): resolve target dimensions (may raise),
flatten transparency to RGB, then either letterbox onto a white canvas of
exactly the target size (maintain_aspect) or stretch to the target size. -/
def resize_image (image : Img) (preset : ResizePreset)
    (custom_size : Option (Int × Int)) (maintain_aspect : Bool) : Except Err Img := do
  let (target_width, target_height) ← get_preset_dimensions preset custom_size
  let image := flatten_transparency image
  if maintain_aspect then
    let l := fit_layout image.width image.height target_width target_height
    let nw := l.1
    let nh := l.2.1
    let paste_x := l.2.2.1
    let paste_y := l.2.2.2
    let resized := resample image nw nh
    pure { width := target_width.toNat, height := target_height.toNat, mode := Mode.RGB,
           px := fun x y =>
             if paste_x ≤ (x : Int) ∧ (x : Int) < paste_x + (nw : Int) ∧
                paste_y ≤ (y : Int) ∧ (y : Int) < paste_y + (nh : Int) then
               resized.px ((x : Int) - paste_x).toNat ((y : Int) - paste_y).toNat
             else white }
  else
    pure (resample image target_width.toNat target_height.toNat)

/-- `crop_to_aspect` (lines 92-111): center-crop to the target aspect ratio
(cropping width when the source is relatively wider, height otherwise,
with truncated sizes and floor-division offsets), then resize to exactly
the target dimensions. The source compares float ratios
(`original_ratio > target_ratio`) and truncates `int(oh * target_ratio)`
and `int(ow / target_ratio)`; as in `fit_layout` the float arithmetic is
modelled as exact rationals by cross-multiplication and `Int.tdiv`. -/
def crop_to_aspect (image : Img) (target_width target_height : Int) : Img :=
  let ow := image.width
  let oh := image.height
  let cropped :=
    if (ow : Int) * target_height > target_width * (oh : Int) then
      let new_width := (Int.tdiv ((oh : Int) * target_width) target_height).toNat
      let left := pyFloorDiv ((ow : Int) - (new_width : Int)) 2
      { width := new_width, height := oh, mode := image.mode,
        px := fun x y => image.px (left + (x : Int)).toNat y : Img }
    else
      let new_height := (Int.tdiv ((ow : Int) * target_height) target_width).toNat
      let top := pyFloorDiv ((oh : Int) - (new_height : Int)) 2
      { width := ow, height := new_height, mode := image.mode,
        px := fun x y => image.px x (top + (y : Int)).toNat : Img }
  resample cropped target_width.toNat target_height.toNat

/-- The `format_map` dict of `convert_format` (lines 125-130): supported
target formats with their file extension and required color mode. -/
def format_map : List (String × (String × Mode)) :=
  [("JPEG", (".jpg", Mode.RGB)), ("JPG", (".jpg", Mode.RGB)),
   ("PNG", (".png", Mode.RGBA)), ("WEBP", (".webp", Mode.RGBA))]

/-- `convert_format` (lines 114-155): look up the uppercased target format
(ValueError when unsupported); for an RGB target flatten RGBA/P/LA sources
over white; for an RGBA target convert P and RGB sources to RGBA (other
modes, including LA and L, are left unchanged). Returns the converted image
and the extension. -/
def convert_format (image : Img) (target_format : String) : Except Err (Img × String) :=
  match (format_map.lookup (pyUpper target_format)) with
  | none => Except.error (Err.valueError ("Unsupported format: " ++ target_format))
  | some (extension, mode) =>
    if mode = Mode.RGB ∧ image.mode ∈ [Mode.RGBA, Mode.P, Mode.LA] then
      let image1 := if image.mode = Mode.P then convertMode image Mode.RGBA else image
      if hasA image1.mode then Except.ok (pasteOnWhite image1, extension)
      else Except.ok (convertMode image1 Mode.RGB, extension)
    else if mode = Mode.RGBA ∧ image.mode ∉ [Mode.RGBA, Mode.LA] then
      if image.mode = Mode.P then Except.ok (convertMode image Mode.RGBA, extension)
      else if image.mode = Mode.RGB then Except.ok (convertMode image Mode.RGBA, extension)
      else Except.ok (image, extension)
    else Except.ok (image, extension)

/-- Input bytes as seen through `Image.open`: decodable bytes are modelled
by the image they decode to, undecodable bytes by `none`. -/
abbrev ImageData : Type := Option Img

/-- `Image.open(io.BytesIO(image_data))`: yields the decoded image or raises
PIL's `UnidentifiedImageError`. -/
def image_open (image_data : ImageData) : Except Err Img :=
  match image_data with
  | some img => Except.ok img
  | none => Except.error Err.unidentifiedImage

/-- The encoded output of `processed.save(...)`: the save format, the
keyword arguments the source passes (quality for JPEG/WEBP, optimize for
JPEG/WEBP/PNG) and the pixel data handed to the encoder. The byte-level
codec itself is external to the repository. -/
structure Encoded where
  save_format : String
  quality : Option Int
  optimize : Bool
  image : Img

/-- `process_image` (lines 201-279): open the image (decode happens FIRST,
before any configuration is examined), resolve target dimensions, apply
crop-to-aspect (with its own transparency handling) or `resize_image`,
then either convert to an explicit target format or infer the save format
from the original filename's extension (default png), build the save
keyword arguments, and force RGB immediately before a JPEG encode. -/
def process_image (image_data : ImageData) (filename : String)
    (preset : ResizePreset) (custom_size : Option (Int × Int))
    (target_format : Option String) (maintain_aspect crop_to_fit : Bool)
    (quality : Int) : Except Err (Encoded × String) := do
  let image ← image_open image_data
  let (target_width, target_height) ← get_preset_dimensions preset custom_size
  let processed ←
    if crop_to_fit then
      pure (crop_to_aspect (flatten_transparency_crop image) target_width target_height)
    else
      resize_image image preset custom_size maintain_aspect
  let (processed, extension, save_format) ←
    match target_format with
    | some tf => do
      let (p, ext) ← convert_format processed tf
      let sf := pyUpper tf
      pure (p, ext, if sf = "JPG" then "JPEG" else sf)
    | none =>
      let orig_ext :=
        match rsplitDot filename.toList with
        | some (_, e) => pyLower (String.mk e)
        | none => "png"
      let sf := pyUpper orig_ext
      pure (processed, "." ++ orig_ext, if sf = "JPG" then "JPEG" else sf)
  let q := if save_format = "JPEG" ∨ save_format = "WEBP" then some quality else none
  let opt := save_format = "JPEG" ∨ save_format = "WEBP" ∨ save_format = "PNG"
  let processed := if save_format = "JPEG" ∧ processed.mode ≠ Mode.RGB then
      convertMode processed Mode.RGB
    else processed
  pure ({ save_format := save_format, quality := q, optimize := opt, image := processed },
        extension)

/-- One input item of `batch_process`: the Python dict with keys 'data' and
'name'. -/
structure ImgItem where
  data : ImageData
  name : String

/-- The body of `batch_process`'s loop for one item (lines 317-338): process
the image, then generate the new filename with the 1-based index. -/
def item_result (preset : ResizePreset) (custom_size : Option (Int × Int))
    (target_format : Option String) (maintain_aspect crop_to_fit : Bool)
    (quality : Int) (pfx sfx : String) ( use_numbering : Bool)
    (idx : Nat) (it : ImgItem) : Except Err (Encoded × String) := do
  let (processed_data, extension) ←
    process_image it.data it.name preset custom_size target_format
      maintain_aspect crop_to_fit quality
  pure (processed_data,
        generate_filename it.name idx pfx sfx use_numbering (some extension))

/-- The loop of `batch_process` (lines 314-345), with the progress-callback
side effect reified as a trace: the returned list of `(current, total)`
pairs records each callback invocation, in order (empty when no callback is
supplied). `idx` is the number of items already consumed. An item failure
propagates the error unchanged and produces no results. -/
def batch_go (preset : ResizePreset) (custom_size : Option (Int × Int))
    (target_format : Option String) (maintain_aspect crop_to_fit : Bool)
    (quality : Int) (pfx sfx : String) ( use_numbering : Bool)
    (has_callback : Bool) (total : Nat) :
    Nat → List ImgItem → Except Err (List (Encoded × String) × List (Nat × Nat))
  | _, [] => Except.ok ([], [])
  | idx, it :: rest => do
    let r ← item_result preset custom_size target_format maintain_aspect crop_to_fit
      quality pfx sfx use_numbering (idx + 1) it
    let (rs, tr) ← batch_go preset custom_size target_format maintain_aspect crop_to_fit
      quality pfx sfx use_numbering has_callback total (idx + 1) rest
    pure (r :: rs, (if has_callback then [(idx + 1, total)] else []) ++ tr)

/-- `batch_process` (lines 282-345): run the per-item loop over the whole
input list with `total = len(images)`, starting from index 0. -/
def batch_process (images : List ImgItem) (preset : ResizePreset)
    (custom_size : Option (Int × Int)) (target_format : Option String)
    (maintain_aspect crop_to_fit : Bool) (quality : Int)
    (pfx sfx : String) ( use_numbering : Bool) (has_callback : Bool) :
    Except Err (List (Encoded × String) × List (Nat × Nat)) :=
  batch_go preset custom_size target_format maintain_aspect crop_to_fit
    quality pfx sfx use_numbering has_callback images.length 0 images

/-- The compression method passed to `zipfile.ZipFile`: `ZIP_DEFLATED`. -/
inductive CompressMethod where
  | deflated
  | stored
deriving DecidableEq

/-- One entry of the archive: stored name, payload, compression method. -/
structure ZipEntry where
  name : String
  data : Encoded
  compress_type : CompressMethod

/-- The in-memory archive being written. -/
structure ZipFile where
  entries : List ZipEntry

/-- `zip_file.writestr(filename, image_data)`: append one entry, compressed
with the archive's method (ZIP_DEFLATED here). -/
def writestr (z : ZipFile) (filename : String) (image_data : Encoded) : ZipFile :=
  { entries := z.entries ++ [⟨filename, image_data, CompressMethod.deflated⟩] }

/-- `create_zip` (lines 348-364): write every (bytes, filename) pair into a
fresh deflate-compressed archive, in list order. -/
def create_zip (processed_images : List (Encoded × String)) : ZipFile :=
  processed_images.foldl (fun z p => writestr z p.2 p.1) ⟨[]⟩

end QuickResizer

deriving instance DecidableEq for Except

namespace QuickResizer

/-- Small concrete images used to instantiate the theorems below. -/
def imgRGB8 : Img := ⟨8, 8, Mode.RGB, fun _ _ => white⟩

/-- A fully black, opaque 2000x1000 RGB image. -/
def img2000 : Img := ⟨2000, 1000, Mode.RGB, fun _ _ => ⟨0, 0, 0, 255⟩⟩

/-- A 10x10 RGBA image that is fully transparent red everywhere. -/
def imgTransparentRed : Img := ⟨10, 10, Mode.RGBA, fun _ _ => ⟨255, 0, 0, 0⟩⟩

/-- C5: filename generation agrees with the reference definition for every
original name, index, prefix, suffix, numbering flag and (nonempty) final
extension: strip the text after the last dot, form prefix + base + suffix,
append the underscore and 4-digit zero-padded index when numbering is on,
then append the final extension. -/
theorem C5_generate_filename_matches_reference (original_name : String)
    (index : Nat) (pfx sfx : String) ( use_numbering : Bool) (e : String)
    (he : e ≠ "") :
    generate_filename original_name index pfx sfx use_numbering (some e) =
      spec_generate_filename original_name index pfx sfx use_numbering e := by
  unfold generate_filename spec_generate_filename
  cases h : rsplitDot original_name.toList with
  | none => simp [he]
  | some p => simp [he]

/-- C5 witness: the documented scenario - prefix "out_", numbering on,
index 3, original "img.bmp", extension ".png" - agrees with the reference
definition and produces "out_img_0003.png". -/
theorem C5_witness :
    generate_filename "img.bmp" 3 "out_" "" true (some ".png") =
      spec_generate_filename "img.bmp" 3 "out_" "" true ".png" ∧
    generate_filename "img.bmp" 3 "out_" "" true (some ".png") = "out_img_0003.png" :=
  ⟨C5_generate_filename_matches_reference "img.bmp" 3 "out_" "" true ".png" (by decide),
   by decide⟩

/-- C10: when numbering is off, the generated filename does not depend on the
index argument: any two indices give the identical string. -/
theorem C10_index_independent_without_numbering (original_name : String)
    (pfx sfx : String) (extension : Option String) (i j : Nat) :
    generate_filename original_name i pfx sfx false extension =
      generate_filename original_name j pfx sfx false extension := rfl

/-- All four supported keys and only they are found in the format map. -/
theorem format_map_lookup_eq_none (s : String) :
    format_map.lookup s = none ↔ s ∉ ["JPEG", "JPG", "PNG", "WEBP"] := by
  by_cases h1 : s = "JPEG"
  · subst h1; decide
  by_cases h2 : s = "JPG"
  · subst h2; decide
  by_cases h3 : s = "PNG"
  · subst h3; decide
  by_cases h4 : s = "WEBP"
  · subst h4; decide
  simp [format_map, List.lookup, beq_eq_false_iff_ne.mpr h1, beq_eq_false_iff_ne.mpr h2,
        beq_eq_false_iff_ne.mpr h3, beq_eq_false_iff_ne.mpr h4, h1, h2, h3, h4]

/-- C9: format conversion fails exactly when the uppercased requested format
is outside the supported set JPEG, JPG, PNG, WEBP; in particular it fails
for "TIFF". -/
theorem C9_unsupported_format_iff :
    (∀ (image : Img) (fmt : String),
        isErr (convert_format image fmt) = true ↔
          pyUpper fmt ∉ ["JPEG", "JPG", "PNG", "WEBP"]) ∧
    (∀ image : Img, isErr (convert_format image "TIFF") = true) := by
  constructor
  · intro image fmt
    rcases h : format_map.lookup (pyUpper fmt) with _ | p
    · simp [convert_format, h, isErr, (format_map_lookup_eq_none _).mp h]
    · have hmem : pyUpper fmt ∈ ["JPEG", "JPG", "PNG", "WEBP"] := by
        by_contra hc
        rw [(format_map_lookup_eq_none _).mpr hc] at h
        cases h
      obtain ⟨ext, mode⟩ := p
      simp only [convert_format, h]
      constructor
      · intro hfalse
        split_ifs at hfalse <;> simp [isErr] at hfalse
      · intro hnot
        exact absurd hmem hnot
  · intro image
    have h : format_map.lookup (pyUpper "TIFF") = none := by decide
    simp [convert_format, h, isErr]

/-- C1 counterexample: `get_preset_dimensions` accepts a non-positive custom
pair (0, -5) without error; `process_image` succeeds with quality 0, which
lies outside 1-100; and `process_image` decodes the input before examining
the configuration, so undecodable bytes with an invalid CUSTOM
configuration surface as the decode error, not as a configuration error. -/
theorem C1_counterexample :
    get_preset_dimensions ResizePreset.CUSTOM (some (0, -5)) = Except.ok (0, -5) ∧
    isErr (process_image (some imgRGB8) "a.png" ResizePreset.SQUARE_1080
      none none true false 0) = false ∧
    process_image none "a.png" ResizePreset.CUSTOM none none true false 95 =
      Except.error Err.unidentifiedImage := ⟨rfl, rfl, rfl⟩

/-- C1 amended: dimension resolution fails exactly when the preset is CUSTOM
and no custom pair is supplied (any supplied pair, positive or not, is
returned unvalidated); quality is never validated, so processing succeeds
for every quality value; and `process_image` decodes the input image before
resolving dimensions, so undecodable bytes raise the decode error even when
the configuration is itself invalid. -/
theorem C1_amended_validation (w h q : Int) (img : Img) (fname : String)
    (hw : 0 < img.width) (hh : 0 < img.height) :
    get_preset_dimensions ResizePreset.CUSTOM none =
      Except.error (Err.valueError "Custom size must be provided for CUSTOM preset") ∧
    get_preset_dimensions ResizePreset.CUSTOM (some (w, h)) = Except.ok (w, h) ∧
    isErr (process_image (some img) fname ResizePreset.SQUARE_1080
      none none true false q) = false ∧
    process_image none fname ResizePreset.CUSTOM none none true false q =
      Except.error Err.unidentifiedImage := ⟨rfl, rfl, rfl, rfl⟩

/-- C1 witness: the amended statement instantiated at the pair (0, -5),
quality 0 and a concrete 8x8 image. -/
theorem C1_witness :
    get_preset_dimensions ResizePreset.CUSTOM none =
      Except.error (Err.valueError "Custom size must be provided for CUSTOM preset") ∧
    get_preset_dimensions ResizePreset.CUSTOM (some (0, -5)) = Except.ok (0, -5) ∧
    isErr (process_image (some imgRGB8) "b.png" ResizePreset.SQUARE_1080
      none none true false 0) = false ∧
    process_image none "b.png" ResizePreset.CUSTOM none none true false 0 =
      Except.error Err.unidentifiedImage :=
  C1_amended_validation 0 (-5) 0 imgRGB8 "b.png" (by decide) (by decide)

/-- C2: for a source with positive dimensions and a resolved positive target,
all three strategies produce exactly the target dimensions: Fit
(resize_image with maintain_aspect), Stretch (resize_image without it) and
Cover (crop_to_aspect). -/
theorem C2_exact_output_dimensions (img : Img) (preset : ResizePreset)
    (custom_size : Option (Int × Int)) (tw th : Int)
    (hres : get_preset_dimensions preset custom_size = Except.ok (tw, th))
    (htw : 0 < tw) (hth : 0 < th) (hw : 0 < img.width) (hh : 0 < img.height) :
    (resize_image img preset custom_size true).map
        (fun o => ((o.width : Int), (o.height : Int))) = Except.ok (tw, th) ∧
    (resize_image img preset custom_size false).map
        (fun o => ((o.width : Int), (o.height : Int))) = Except.ok (tw, th) ∧
    ((crop_to_aspect img tw th).width : Int) = tw ∧
    ((crop_to_aspect img tw th).height : Int) = th := by
  have h1 : (tw.toNat : Int) = tw := Int.toNat_of_nonneg htw.le
  have h2 : (th.toNat : Int) = th := Int.toNat_of_nonneg hth.le
  refine ⟨?_, ?_, ?_, ?_⟩
  · simp [resize_image, hres, Except.map, h1, h2]
  · simp [resize_image, hres, Except.map, resample, h1, h2]
  · simp [crop_to_aspect, resample, h1]
  · simp [crop_to_aspect, resample, h2]

/-- C2 witness: the 2000x1000 source against the Square preset. -/
theorem C2_witness :
    (resize_image img2000 ResizePreset.SQUARE_1080 none true).map
        (fun o => ((o.width : Int), (o.height : Int))) = Except.ok (1080, 1080) ∧
    (resize_image img2000 ResizePreset.SQUARE_1080 none false).map
        (fun o => ((o.width : Int), (o.height : Int))) = Except.ok (1080, 1080) ∧
    ((crop_to_aspect img2000 1080 1080).width : Int) = 1080 ∧
    ((crop_to_aspect img2000 1080 1080).height : Int) = 1080 := by
  have h := C2_exact_output_dimensions img2000 ResizePreset.SQUARE_1080 none 1080 1080
    rfl (by decide) (by decide) (by decide) (by decide)
  exact h

/-- C4 counterexample: for the opaque 2000x1000 input with preset Square and
strategy Fit, the scaled content is 1080x540 pasted at offset (0, 270), so
the white padding bands are 270px thick, not the claimed 135px: the pixel
in row 200 — inside the content region that 135px bands would imply — is
white padding, while row 500 holds the (black) content. -/
theorem C4_counterexample :
    (resize_image img2000 ResizePreset.SQUARE_1080 none true).map
        (fun o => (o.width, o.height, o.px 0 200, o.px 0 500)) =
      Except.ok (1080, 1080, white, ⟨0, 0, 0, 255⟩) ∧
    fit_layout 2000 1000 1080 1080 = (1080, 540, 0, 270) ∧ (270 : Int) ≠ 135 := by
  decide

/-- C4 amended: for any opaque 2000x1000 RGB source with preset Square and
strategy Fit, the output is exactly 1080x1080, the content is scaled by
0.54 to 1080x540 (spanning the full output width, pasted at x = 0, y = 270)
and the white padding bands on top and bottom are 270px thick: every pixel
of rows 0..269 and 810..1079 is white. -/
theorem C4_amended_fit_bands (f : Nat → Nat → Pixel) :
    ∃ out, resize_image ⟨2000, 1000, Mode.RGB, f⟩ ResizePreset.SQUARE_1080 none true =
        Except.ok out ∧
      out.width = 1080 ∧ out.height = 1080 ∧
      fit_layout 2000 1000 1080 1080 = (1080, 540, 0, 270) ∧
      (∀ x y, y < 270 → out.px x y = white) ∧
      (∀ x y, 810 ≤ y → out.px x y = white) := by
  have hl : fit_layout (flatten_transparency ⟨2000, 1000, Mode.RGB, f⟩).width
      (flatten_transparency ⟨2000, 1000, Mode.RGB, f⟩).height 1080 1080 =
      (1080, 540, 0, 270) := by
    show fit_layout 2000 1000 1080 1080 = (1080, 540, 0, 270)
    decide
  refine ⟨_, rfl, rfl, rfl, by decide, ?_, ?_⟩ <;> intro x y hy <;>
    exact if_neg (by rw [hl]; simp; omega)

/-- C4 witness: the amended statement instantiated at the all-black source,
evaluated at one pixel in each padding band. -/
theorem C4_witness :
    (resize_image img2000 ResizePreset.SQUARE_1080 none true).map
        (fun o => (o.px 7 100, o.px 7 900)) = Except.ok (white, white) := by
  obtain ⟨out, hout, _, _, _, htop, hbot⟩ :=
    C4_amended_fit_bands (fun _ _ => ⟨0, 0, 0, 255⟩)
  show (resize_image ⟨2000, 1000, Mode.RGB, fun _ _ => ⟨0, 0, 0, 255⟩⟩
      ResizePreset.SQUARE_1080 none true).map
      (fun o => (o.px 7 100, o.px 7 900)) = Except.ok (white, white)
  rw [hout]
  simp [Except.map, htop 7 100 (by omega), hbot 7 900 (by omega)]

/-- Folding `writestr` over a list appends one deflated entry per pair, in
order. -/
theorem create_zip_go (l : List (Encoded × String)) (z : ZipFile) :
    (l.foldl (fun z p => writestr z p.2 p.1) z).entries =
      z.entries ++ l.map (fun p => ZipEntry.mk p.2 p.1 CompressMethod.deflated) := by
  induction l generalizing z with
  | nil => simp
  | cons p rest ih =>
    rw [List.foldl_cons, ih]
    simp [writestr]

/-- C7: the archive built by create_zip holds exactly one entry per input
pair, in input order, each stored under the corresponding generated
filename with the deflate compression method; in particular the entry
count equals the input count. -/
theorem C7_create_zip_entries (ps : List (Encoded × String)) :
    (create_zip ps).entries =
      ps.map (fun p => ZipEntry.mk p.2 p.1 CompressMethod.deflated) ∧
    (create_zip ps).entries.length = ps.length := by
  have h := create_zip_go ps ⟨[]⟩
  constructor
  · simpa [create_zip] using h
  · have h2 : (create_zip ps).entries =
        ps.map (fun p => ZipEntry.mk p.2 p.1 CompressMethod.deflated) := by
      simpa [create_zip] using h
    rw [h2]
    simp

/-- A non-error Except value is an ok value. -/
theorem isErr_false_exists {ε α : Type} (x : Except ε α) (h : isErr x = false) :
    ∃ v, x = Except.ok v := by
  cases x with
  | error e => simp [isErr] at h
  | ok v => exact ⟨v, rfl⟩

/-- The batch loop propagates the first failing item's error unchanged:
when every item before it succeeds, the loop's result is exactly that
error, whatever the failing item's position or the items after it. -/
theorem batch_go_error (preset : ResizePreset) (custom_size : Option (Int × Int))
    (target_format : Option String) (maintain_aspect crop_to_fit : Bool)
    (quality : Int) (pfx sfx : String) ( use_numbering : Bool)
    (has_callback : Bool) (total : Nat) (e : Err) :
    ∀ (pre : List ImgItem) (bad : ImgItem) (rest : List ImgItem) (idx : Nat),
      (∀ it ∈ pre, isErr (process_image it.data it.name preset custom_size target_format
        maintain_aspect crop_to_fit quality) = false) →
      process_image bad.data bad.name preset custom_size target_format
        maintain_aspect crop_to_fit quality = Except.error e →
      batch_go preset custom_size target_format maintain_aspect crop_to_fit quality
        pfx sfx use_numbering has_callback total idx (pre ++ bad :: rest) =
        Except.error e := by
  intro pre
  induction pre with
  | nil =>
    intro bad rest idx hpre hbad
    simp [batch_go, item_result, hbad, Except.instMonad, Except.bind, Except.map,
      Bind.bind, Functor.map]
  | cons it pre ih =>
    intro bad rest idx hpre hbad
    obtain ⟨v, hv⟩ := isErr_false_exists _ (hpre it (by simp))
    have hrest := ih bad rest (idx + 1) (fun x hx => hpre x (by simp [hx])) hbad
    simp [batch_go, item_result, hv, hrest, Except.instMonad, Except.bind, Except.map,
      Bind.bind, Functor.map, Except.pure, Pure.pure]

/-- C6 counterexample: two batches whose failing (undecodable) item sits at a
different position and has a different original filename propagate the
IDENTICAL error value, so the propagated error carries neither the item's
index nor its filename; the two-item batch also shows no partial result is
returned although its first item processes successfully. -/
theorem C6_counterexample :
    batch_process [⟨some imgRGB8, "first.png"⟩, ⟨none, "broken.dat"⟩]
      ResizePreset.SQUARE_1080 none none true false 95 "" "" false true =
      Except.error Err.unidentifiedImage ∧
    batch_process [⟨none, "other.jpg"⟩]
      ResizePreset.SQUARE_1080 none none true false 95 "" "" false true =
      Except.error Err.unidentifiedImage := ⟨rfl, rfl⟩

/-- C6 amended: when any item of a batch fails, batch_process terminates
immediately with that item's error and returns no partial results and
performs no retry; the propagated error is the per-item error unchanged,
without the offending item's index or original filename attached. -/
theorem C6_amended_fail_fast (preset : ResizePreset) (custom_size : Option (Int × Int))
    (target_format : Option String) (maintain_aspect crop_to_fit : Bool)
    (quality : Int) (pfx sfx : String) ( use_numbering : Bool) (has_callback : Bool)
    (pre : List ImgItem) (bad : ImgItem) (rest : List ImgItem) (e : Err)
    (hpre : ∀ it ∈ pre, isErr (process_image it.data it.name preset custom_size
      target_format maintain_aspect crop_to_fit quality) = false)
    (hbad : process_image bad.data bad.name preset custom_size target_format
      maintain_aspect crop_to_fit quality = Except.error e) :
    batch_process (pre ++ bad :: rest) preset custom_size target_format
      maintain_aspect crop_to_fit quality pfx sfx use_numbering has_callback =
      Except.error e :=
  batch_go_error preset custom_size target_format maintain_aspect crop_to_fit quality
    pfx sfx use_numbering has_callback (pre ++ bad :: rest).length e pre bad rest 0
    hpre hbad

/-- C6 witness: the amended statement instantiated at a batch whose second
item is undecodable. -/
theorem C6_witness :
    batch_process [⟨some imgRGB8, "w1.png"⟩, ⟨none, "w2.png"⟩]
      ResizePreset.SQUARE_1080 none none true false 95 "p_" "_s" true true =
      Except.error Err.unidentifiedImage :=
  C6_amended_fail_fast ResizePreset.SQUARE_1080 none none true false 95 "p_" "_s"
    true true [⟨some imgRGB8, "w1.png"⟩] ⟨none, "w2.png"⟩ [] Err.unidentifiedImage
    (by intro it hit; simp at hit; subst hit; rfl) rfl

/-- On a batch segment where every item succeeds, the loop returns one
result per item, in order, the i-th derived from the i-th item with the
1-based running index, and records one callback invocation (current, total)
after each item. -/
theorem batch_go_ok (preset : ResizePreset) (custom_size : Option (Int × Int))
    (target_format : Option String) (maintain_aspect crop_to_fit : Bool)
    (quality : Int) (pfx sfx : String) ( use_numbering : Bool) (total : Nat) :
    ∀ (items : List ImgItem) (idx : Nat),
      (∀ it ∈ items, isErr (process_image it.data it.name preset custom_size target_format
        maintain_aspect crop_to_fit quality) = false) →
      ∃ results,
        batch_go preset custom_size target_format maintain_aspect crop_to_fit quality
          pfx sfx use_numbering true total idx items =
          Except.ok (results, (List.range items.length).map (fun i => (idx + i + 1, total))) ∧
        results.length = items.length ∧
        ∀ i it, items[i]? = some it →
          ∃ r, results[i]? = some r ∧
            Except.ok r = item_result preset custom_size target_format maintain_aspect
              crop_to_fit quality pfx sfx use_numbering (idx + i + 1) it := by
  intro items
  induction items with
  | nil =>
    intro idx hok
    refine ⟨[], by simp [batch_go], rfl, ?_⟩
    intro i it h
    simp at h
  | cons it0 rest ih =>
    intro idx hok
    obtain ⟨v, hv⟩ := isErr_false_exists _ (hok it0 (by simp))
    have hitem : item_result preset custom_size target_format maintain_aspect crop_to_fit
        quality pfx sfx use_numbering (idx + 1) it0 =
        Except.ok (v.1, generate_filename it0.name (idx + 1) pfx sfx use_numbering (some v.2)) := by
      simp [item_result, hv, Except.instMonad, Except.bind, Except.map, Bind.bind,
        Functor.map, Except.pure, Pure.pure]
    obtain ⟨rs, hgo, hlen, hidx⟩ := ih (idx + 1) (fun x hx => hok x (by simp [hx]))
    refine ⟨(v.1, generate_filename it0.name (idx + 1) pfx sfx use_numbering (some v.2)) :: rs,
      ?_, by simp [hlen], ?_⟩
    · have htr : (List.range (rest.length + 1)).map (fun i => (idx + i + 1, total)) =
          (idx + 1, total) :: (List.range rest.length).map (fun i => (idx + 1 + i + 1, total)) := by
        rw [List.range_succ_eq_map, List.map_cons, List.map_map]
        refine congrArg₂ _ (by simp) (List.map_congr_left ?_)
        intro a _
        simp only [Function.comp_apply, Prod.ext_iff]
        exact ⟨by omega, trivial⟩
      simp only [List.length_cons, htr]
      simp [batch_go, hitem, hgo, Except.instMonad, Except.bind, Except.map, Bind.bind,
        Functor.map, Except.pure, Pure.pure]
    · intro i itx hx
      cases i with
      | zero =>
        simp at hx
        subst hx
        refine ⟨(v.1, generate_filename it0.name (idx + 1) pfx sfx use_numbering (some v.2)),
          by simp, ?_⟩
        simpa using hitem.symm
      | succ n =>
        simp at hx
        obtain ⟨r, hr, hri⟩ := hidx n itx hx
        refine ⟨r, by simpa using hr, ?_⟩
        have harith : idx + (n + 1) + 1 = idx + 1 + n + 1 := by omega
        rw [harith]
        exact hri

/-- C8: on a batch where every item succeeds, batch_process returns exactly
one (bytes, filename) result per input, in input order — the i-th output is
the i-th input processed with 1-based sequence number i — and the supplied
progress callback is invoked exactly once after each item with
(completed-count, total-count): the trace is (1,n), ..., (n,n). -/
theorem C8_batch_order (images : List ImgItem) (preset : ResizePreset)
    (custom_size : Option (Int × Int)) (target_format : Option String)
    (maintain_aspect crop_to_fit : Bool) (quality : Int) (pfx sfx : String)
    ( use_numbering : Bool)
    (hok : ∀ it ∈ images, isErr (process_image it.data it.name preset custom_size
      target_format maintain_aspect crop_to_fit quality) = false) :
    ∃ results,
      batch_process images preset custom_size target_format maintain_aspect crop_to_fit
        quality pfx sfx use_numbering true =
        Except.ok (results, (List.range images.length).map (fun i => (i + 1, images.length))) ∧
      results.length = images.length ∧
      ∀ i it, images[i]? = some it →
        ∃ r, results[i]? = some r ∧
          Except.ok r = item_result preset custom_size target_format maintain_aspect
            crop_to_fit quality pfx sfx use_numbering (i + 1) it := by
  obtain ⟨rs, h1, h2, h3⟩ := batch_go_ok preset custom_size target_format maintain_aspect
    crop_to_fit quality pfx sfx use_numbering images.length images 0 hok
  refine ⟨rs, ?_, h2, ?_⟩
  · simpa using h1
  · intro i it hx
    obtain ⟨r, hr, hri⟩ := h3 i it hx
    exact ⟨r, hr, by simpa using hri⟩


set_option maxRecDepth 4096 in
/-- PIL's fixed-point rounding is exact at full alpha: blending weight 255
returns the source channel for every channel value. -/
theorem muldiv255_255 : ∀ s < 256, muldiv255 s 255 = s := by decide

/-- PIL's fixed-point rounding at weight 0 contributes nothing. -/
theorem muldiv255_zero (s : Nat) : muldiv255 s 0 = 0 := by
  simp [muldiv255]

/-- Compositing over white at alpha 0 gives white in every channel. -/
theorem blend_zero (s : Nat) : blend 255 s 0 = 255 := by
  have h : muldiv255 255 (255 - 0) = 255 := by decide
  simp [blend, h, muldiv255_zero]

/-- Compositing over white at alpha 255 keeps the source channel. -/
theorem blend_full (s : Nat) (hs : s < 256) : blend 255 s 255 = s := by
  have h0 : muldiv255 255 0 = 0 := by decide
  simp [blend, h0, muldiv255_255 s hs]

/-- C3 counterexample: the claim that an alpha-capable target preserves the
source's alpha channel is false. A fully transparent red RGBA source
processed with target PNG comes out as opaque white (mode RGBA, every
channel 255): the pre-resize normalization flattened the alpha onto white
before the encoder added a fully opaque alpha. Also, convert_format with
target PNG leaves an LA source in 2-channel LA mode, not a 4-channel one. -/
theorem C3_counterexample :
    (process_image (some imgTransparentRed) "photo.png" ResizePreset.SQUARE_1080
        none (some "PNG") true false 95).map
      (fun r => (r.1.image.mode, r.1.image.px 0 0, r.2)) =
      Except.ok (Mode.RGBA, white, ".png") ∧
    (convert_format ⟨4, 4, Mode.LA, fun _ _ => ⟨7, 7, 7, 9⟩⟩ "PNG").map
      (fun r => r.1.mode) = Except.ok Mode.LA := ⟨rfl, rfl⟩

/-- C3 amended: the pre-resize normalization always flattens to 3-channel
RGB regardless of the target format's alpha support — fully transparent
RGBA pixels become white and fully opaque ones keep their color; at
encoding, convert_format composites RGBA/P/LA over white for the JPEG
target and, for the PNG target, converts P and RGB sources to RGBA with an
opaque alpha while passing RGBA, LA and L sources through unchanged; in
the full pipeline with an alpha-capable target the encoded image is RGBA
with a fully opaque alpha channel — the source's alpha is flattened onto
white beforehand, never preserved. -/
theorem C3_amended_normalization :
    (∀ img : Img, (flatten_transparency img).mode = Mode.RGB) ∧
    (∀ (img : Img) (x y : Nat), img.mode = Mode.RGBA → (img.px x y).a = 0 →
      (flatten_transparency img).px x y = white) ∧
    (∀ (img : Img) (x y : Nat) (r g b : Nat), img.mode = Mode.RGBA →
      img.px x y = ⟨r, g, b, 255⟩ → r < 256 → g < 256 → b < 256 →
      (flatten_transparency img).px x y = ⟨r, g, b, 255⟩) ∧
    (∀ img : Img, img.mode = Mode.P ∨ img.mode = Mode.RGB →
      (convert_format img "PNG").map (fun r => r.1.mode) = Except.ok Mode.RGBA) ∧
    (∀ img : Img, img.mode = Mode.RGBA ∨ img.mode = Mode.LA ∨ img.mode = Mode.L →
      (convert_format img "PNG").map (fun r => r.1.mode) = Except.ok img.mode) ∧
    (∀ img : Img, (convert_format img "JPEG").map (fun r => r.1.mode) =
      Except.ok (if img.mode ∈ [Mode.RGBA, Mode.P, Mode.LA] then Mode.RGB else img.mode)) ∧
    (∀ (src : Img) (fname : String) (q : Int) (x y : Nat),
      0 < src.width → 0 < src.height →
      (process_image (some src) fname ResizePreset.SQUARE_1080 none (some "PNG")
          true false q).map (fun r => (r.1.image.mode, (r.1.image.px x y).a)) =
        Except.ok (Mode.RGBA, 255)) := by
  have hpng : format_map.lookup (pyUpper "PNG") = some (".png", Mode.RGBA) := by decide
  have hjpeg : format_map.lookup (pyUpper "JPEG") = some (".jpg", Mode.RGB) := by decide
  refine ⟨?_, ?_, ?_, ?_, ?_, ?_, ?_⟩
  · intro img
    cases hm : img.mode <;> simp [flatten_transparency, hm, pasteOnWhite, convertMode, hasA]
  · intro img x y hm ha
    simp [flatten_transparency, hm, pasteOnWhite, ha, blend_zero, white, hasA]
  · intro img x y r g b hm hp hr hg hb
    simp [flatten_transparency, hm, pasteOnWhite, hp, blend_full r hr, blend_full g hg,
      blend_full b hb, hasA]
  · intro img hm
    rcases hm with hm | hm <;>
      simp [convert_format, hpng, hm, convertMode, Except.map, hasA]
  · intro img hm
    rcases hm with hm | hm | hm <;>
      simp [convert_format, hpng, hm, convertMode, Except.map, hasA]
  · intro img
    cases hm : img.mode <;>
      simp [convert_format, hjpeg, hm, convertMode, pasteOnWhite, Except.map, hasA]
  · intro src fname q x y hw hh
    rfl

/-- C3 witness: the amended statement instantiated at a 2x2 fully
transparent RGBA source. -/
theorem C3_witness :
    (flatten_transparency ⟨2, 2, Mode.RGBA, fun _ _ => ⟨9, 9, 9, 0⟩⟩).px 0 0 = white ∧
    (process_image (some ⟨2, 2, Mode.RGBA, fun _ _ => ⟨9, 9, 9, 0⟩⟩) "w.png"
        ResizePreset.SQUARE_1080 none (some "PNG") true false 95).map
      (fun r => (r.1.image.mode, (r.1.image.px 1 1).a)) = Except.ok (Mode.RGBA, 255) := by
  obtain ⟨h1, h2, h3, h4, h5, h6, h7⟩ := C3_amended_normalization
  exact ⟨h2 _ 0 0 rfl rfl, h7 _ "w.png" 95 1 1 (by decide) (by decide)⟩

/-- C8 witness: a concrete two-item batch returns 2 results and the callback
trace (1,2), (2,2). -/
theorem C8_witness :
    (batch_process [⟨some imgRGB8, "x.png"⟩, ⟨some imgRGB8, "y.jpg"⟩]
        ResizePreset.SQUARE_1080 none none true false 95 "" "" true true).map
      (fun p => (p.1.length, p.2)) = Except.ok (2, [(1, 2), (2, 2)]) := by
  obtain ⟨rs, h1, h2, h3⟩ := C8_batch_order
    [⟨some imgRGB8, "x.png"⟩, ⟨some imgRGB8, "y.jpg"⟩] ResizePreset.SQUARE_1080
    none none true false 95 "" "" true
    (by intro it hit; simp at hit; rcases hit with h | h <;> subst h <;> rfl)
  rw [h1]
  simp [Except.map, h2]
  rfl

end QuickResizer
